import Mathlib

/-!
Verification of the delegated-routing HTTP server (`routing/http/server`)
and the content-router client adapter (`routing/http/contentrouter`).

The Go source is embedded shallowly: handlers become pure functions from an
environment of external collaborators (CID decoding, IPNS record codec and
validation, the backend `ContentRouter`) and a request to an observable
outcome (status code, message, body, and which backend calls were made).
Machine integers are modelled as `Nat` with explicit `% 2^64` where the
code relies on 64-bit wraparound (the xxhash fingerprint).
-/

namespace Boxo

/-! ## Go `strings.Contains` -/

/-- True iff `sub` occurs contiguously inside `l`
(the semantics of Go `strings.Contains` on the underlying runes). -/
def subListIn (sub : List Char) : List Char → Bool
  | [] => sub.isEmpty
  | c :: rest => sub.isPrefixOf (c :: rest) || subListIn sub rest

/-- Go `strings.Contains s sub`. -/
def strContains (s sub : String) : Bool :=
  subListIn sub.toList s.toList

/-! ## Server constants (`routing/http/server`) -/

def mediaTypeJSON : String := "application/json"

def mediaTypeNDJSON : String := "application/x-ndjson"

def mediaTypeWildcard : String := "*/*"

def mediaTypeIPNSRecord : String := "application/vnd.ipfs.ipns-record"

def DefaultRecordsLimit : Int := 20

def DefaultStreamingRecordsLimit : Int := 0

/-! ## Content negotiation (`server.findProviders`, lines 124-159)

Each `Accept` header value is split on commas and every token is fed to
`mime.ParseMediaType` (an external collaborator). A token is therefore
modelled as the outcome of that parse: either `malformed` (carrying the
parse error text) or `parsed` with the extracted media type (parameters
dropped, as the code discards them). -/

inductive MediaToken where
  | malformed (e : String)
  | parsed (mt : String)
deriving DecidableEq

inductive Strategy where
  | json
  | ndjson
deriving DecidableEq

/-- The per-server configuration relevant to negotiation: the
`WithStreamingResultsDisabled`, `WithRecordsLimit` and
`WithStreamingRecordsLimit` options. -/
structure ServerCfg where
  disableNDJSON : Bool
  recordsLimit : Int
  streamingRecordsLimit : Int
deriving DecidableEq

/-- The double loop over `Accept` header values and their comma-separated
tokens (flattened; the iteration order is identical): sets the
`supportsJSON` / `supportsNDJSON` flags, aborting on the first token that
`mime.ParseMediaType` rejects. -/
def scanTokens : List MediaToken → Bool → Bool → Except String (Bool × Bool)
  | [], supportsJSON, supportsNDJSON => .ok (supportsJSON, supportsNDJSON)
  | .malformed e :: _, _, _ => .error ("unable to parse Accept header: " ++ e)
  | .parsed mt :: rest, supportsJSON, supportsNDJSON =>
      scanTokens rest
        (supportsJSON || mt == mediaTypeJSON || mt == mediaTypeWildcard)
        (supportsNDJSON || mt == mediaTypeNDJSON)

/-- Content negotiation: chooses the handler and the records limit exactly
as `findProviders` does. `acceptHeaders` is the list of `Accept` header
values, each already split into parsed tokens. -/
def negotiate (cfg : ServerCfg) (acceptHeaders : List (List MediaToken)) :
    Except String (Strategy × Int) :=
  if acceptHeaders.isEmpty then .ok (.json, cfg.recordsLimit)
  else
    match scanTokens acceptHeaders.flatten false false with
    | .error e => .error e
    | .ok (supportsJSON, supportsNDJSON) =>
      if supportsNDJSON && !cfg.disableNDJSON then .ok (.ndjson, cfg.streamingRecordsLimit)
      else if supportsJSON then .ok (.json, cfg.recordsLimit)
      else .error ("no supported content types")

/-! ## Discovery response writers

The backend type `iter.ResultIter[types.Record]` is a pull-based sequence of
results, each either a value or an error; drained fully by both writers,
it is modelled as a `List (Except String R)` in production order. -/

/-- Outcome of the bulk (JSON) writer: either an error response written by
`writeErr`, or the `jsontypes.ProvidersResponse` value handed to
`writeJSONResult` (whose drjson serialization is deterministic, so the
provider list determines the body bytes). -/
inductive JSONOutcome (R : Type) where
  | errResp (status : Nat) (msg : String)
  | okResp (providers : List R)
deriving DecidableEq

/-- The accumulation loop of `findProvidersJSON`: `i` counts records
appended so far and `acc` is the `providers` slice. -/
def findProvidersJSONLoop {R : Type} :
    List (Except String R) → Nat → List R → JSONOutcome R
  | [], _, acc => .okResp acc
  | .error e :: _, i, _ =>
      .errResp 500 ("delegate error on result " ++ toString i ++ ": " ++ e)
  | .ok v :: rest, i, acc => findProvidersJSONLoop rest (i + 1) (acc ++ [v])

/-- Embeds `server.findProvidersJSON` (lines 170-189): drain the whole sequence
into a list; the first error item aborts with a 500 naming the 0-based
index; nothing is written to the client before the loop finishes. -/
def findProvidersJSON {R : Type} (items : List (Except String R)) : JSONOutcome R :=
  findProvidersJSONLoop items 0 []

/-- Outcome of the streaming writer: the committed status (always 200,
written before the loop) and the chunks passed to `w.Write`, in order.
Write failures depend on the client socket and are outside the program;
the embedding models the executions in which writes succeed. -/
structure NDJSONOut where
  status : Nat
  chunks : List String
deriving DecidableEq

/-- The loop of `findProvidersNDJSON`: an error item or a marshal error
terminates silently; otherwise the drjson bytes and a newline are
written and flushed. `marshal` is `drjson.MarshalJSONBytes`. -/
def findProvidersNDJSONLoop {R : Type} (marshal : R → Except String String) :
    List (Except String R) → List String → List String
  | [], acc => acc
  | .error _ :: _, acc => acc
  | .ok v :: rest, acc =>
      match marshal v with
      | .error _ => acc
      | .ok b => findProvidersNDJSONLoop marshal rest (acc ++ [b, "\n"])

/-- Embeds `server.findProvidersNDJSON` (lines 191-225). -/
def findProvidersNDJSON {R : Type} (marshal : R → Except String String)
    (items : List (Except String R)) : NDJSONOut :=
  { status := 200, chunks := findProvidersNDJSONLoop marshal items [] }

/-! ## The discovery handler (`server.findProviders`, lines 113-168) -/

/-- The response of the discovery endpoint: an error written by `writeErr`
(400 for parse/negotiation failures, 500 for a delegate error), or the
output of one of the two writers. -/
inductive FPResponse (R : Type) where
  | err (status : Nat) (msg : String)
  | jsonOut (out : JSONOutcome R)
  | ndjsonOut (out : NDJSONOut)
deriving DecidableEq

/-- The observable result of the discovery handler: the response plus the
`ContentRouter.FindProviders` invocation it made, if any (key and limit). -/
structure FPResult (C R : Type) where
  response : FPResponse R
  findProvidersCall : Option (C × Int)
deriving DecidableEq

/-- External collaborators of the discovery handler: `cid.Decode`, the
backend `ContentRouter.FindProviders` (returning the full drained result
sequence, or a lookup error), and `drjson.MarshalJSONBytes`. -/
structure FPEnv (C R : Type) where
  decodeCid : String → Except String C
  findProviders : C → Int → Except String (List (Except String R))
  marshal : R → Except String String

structure FPRequest where
  cidStr : String
  acceptHeaders : List (List MediaToken)

/-- Embeds `server.findProviders`: decode the path CID, negotiate the format,
call the backend with the negotiated limit, dispatch to the chosen
writer. -/
def findProviders {C R : Type} (env : FPEnv C R) (cfg : ServerCfg)
    (req : FPRequest) : FPResult C R :=
  match env.decodeCid req.cidStr with
  | .error e =>
      { response := .err 400 ("unable to parse CID: " ++ e), findProvidersCall := none }
  | .ok c =>
    match negotiate cfg req.acceptHeaders with
    | .error e => { response := .err 400 e, findProvidersCall := none }
    | .ok (strat, recordsLimit) =>
      match env.findProviders c recordsLimit with
      | .error e =>
          { response := .err 500 ("delegate error: " ++ e),
            findProvidersCall := some (c, recordsLimit) }
      | .ok items =>
        match strat with
        | .json =>
            { response := .jsonOut (findProvidersJSON items),
              findProvidersCall := some (c, recordsLimit) }
        | .ndjson =>
            { response := .ndjsonOut (findProvidersNDJSON env.marshal items),
              findProvidersCall := some (c, recordsLimit) }

/-! ## xxhash (`github.com/cespare/xxhash/v2`, `Sum64`)

The record GET handler fingerprints the canonical record bytes with
`xxhash.Sum64`, the reference XXH64 hash with seed 0. It is embedded
bit-faithfully on byte lists, with 64-bit words as `Nat` reduced
`% 2^64`. -/

def xxPrime1 : Nat := 0x9E3779B185EBCA87

def xxPrime2 : Nat := 0xC2B2AE3D27D4EB4F

def xxPrime3 : Nat := 0x165667B19E3779F9

def xxPrime4 : Nat := 0x85EBCA77C2B2AE63

def xxPrime5 : Nat := 0x27D4EB2F165667C5

def mask64 (x : Nat) : Nat := x % 2 ^ 64

/-- Rotate a 64-bit word (given `< 2^64`) left by `r`. -/
def rotl64 (x r : Nat) : Nat := mask64 (x <<< r) ||| (x >>> (64 - r))

/-- The XXH64 round function. -/
def xxRound (acc k : Nat) : Nat :=
  mask64 (rotl64 (mask64 (acc + k * xxPrime2)) 31 * xxPrime1)

/-- Little-endian word value of a byte list. -/
def leWord : List Nat → Nat
  | [] => 0
  | b :: rest => b % 256 + 256 * leWord rest

/-- The 32-byte stripe loop (inputs of length ≥ 32): consumes the four
accumulators over 8-byte lanes and returns them with the remainder. -/
def xxStripeLoop (v1 v2 v3 v4 : Nat) (l : List Nat) :
    (Nat × Nat × Nat × Nat) × List Nat :=
  if _h : 32 ≤ l.length then
    xxStripeLoop
      (xxRound v1 (leWord (l.take 8)))
      (xxRound v2 (leWord ((l.drop 8).take 8)))
      (xxRound v3 (leWord ((l.drop 16).take 8)))
      (xxRound v4 (leWord ((l.drop 24).take 8)))
      (l.drop 32)
  else ((v1, v2, v3, v4), l)
termination_by l.length
decreasing_by simp only [List.length_drop]; omega

/-- The 8-byte tail loop. Structural on the list, so it reduces in the
kernel. -/
def xxTail8 (h : Nat) : List Nat → Nat × List Nat
  | b0 :: b1 :: b2 :: b3 :: b4 :: b5 :: b6 :: b7 :: rest =>
      xxTail8
        (mask64 (rotl64
          (h ^^^ xxRound 0 (leWord [b0, b1, b2, b3, b4, b5, b6, b7])) 27
            * xxPrime1 + xxPrime4))
        rest
  | l => (h, l)

/-- The 4-byte tail step. -/
def xxTail4 (h : Nat) : List Nat → Nat × List Nat
  | b0 :: b1 :: b2 :: b3 :: rest =>
      xxTail4
        (mask64 (rotl64 (h ^^^ mask64 (leWord [b0, b1, b2, b3] * xxPrime1)) 23
          * xxPrime2 + xxPrime3))
        rest
  | l => (h, l)

/-- The single-byte tail loop. -/
def xxTail1 (h : Nat) : List Nat → Nat
  | [] => h
  | b :: rest => xxTail1 (mask64 (rotl64 (h ^^^ mask64 (b % 256 * xxPrime5)) 11 * xxPrime1)) rest

/-- The XXH64 avalanche finalizer. -/
def xxAvalanche (h : Nat) : Nat :=
  let h1 := h ^^^ (h >>> 33)
  let h2 := mask64 (h1 * xxPrime2)
  let h3 := h2 ^^^ (h2 >>> 29)
  let h4 := mask64 (h3 * xxPrime3)
  h4 ^^^ (h4 >>> 32)

/-- Embeds `xxhash.Sum64` with seed 0 on a byte list. -/
def xxhashSum64 (b : List Nat) : Nat :=
  let n := b.length
  let start :
      Nat × List Nat :=
    if 32 ≤ n then
      let sr := xxStripeLoop (mask64 (xxPrime1 + xxPrime2)) xxPrime2 0
        (2 ^ 64 - xxPrime1) b
      let v1 := sr.1.1
      let v2 := sr.1.2.1
      let v3 := sr.1.2.2.1
      let v4 := sr.1.2.2.2
      let h0 := mask64 (rotl64 v1 1 + rotl64 v2 7 + rotl64 v3 12 + rotl64 v4 18)
      let h1 := mask64 ((h0 ^^^ xxRound 0 v1) * xxPrime1 + xxPrime4)
      let h2 := mask64 ((h1 ^^^ xxRound 0 v2) * xxPrime1 + xxPrime4)
      let h3 := mask64 ((h2 ^^^ xxRound 0 v3) * xxPrime1 + xxPrime4)
      let h4 := mask64 ((h3 ^^^ xxRound 0 v4) * xxPrime1 + xxPrime4)
      (h4, sr.2)
    else (xxPrime5, b)
  let hLen := mask64 (start.1 + n)
  let t8 := xxTail8 hLen start.2
  let t4 := xxTail4 t8.1 t8.2
  xxAvalanche (xxTail1 t4.1 t4.2)

/-! ## Entity tag (`server.getIPNSRecord`, lines 265-266) -/

/-- Digit characters of `strconv.FormatUint(_, 32)`: `0-9` then `a-v`. -/
def digitChar32 (d : Nat) : Char :=
  if d < 10 then Char.ofNat (48 + d) else Char.ofNat (87 + d)

/-- Base-32 digit extraction with structural fuel (64 steps cover any
64-bit value), most significant digit first. -/
def toBase32Aux : Nat → Nat → List Char
  | 0, _ => []
  | fuel + 1, n => if n = 0 then [] else toBase32Aux fuel (n / 32) ++ [digitChar32 (n % 32)]

/-- Embeds `strconv.FormatUint(n, 32)`. -/
def formatUintBase32 (n : Nat) : String :=
  if n = 0 then "0" else String.mk (toBase32Aux 64 n)

/-- The Etag computed by the record GET handler:
`strconv.FormatUint(xxhash.Sum64(rawRecord), 32)`. -/
def recordEtag (raw : List Nat) : String :=
  formatUintBase32 (xxhashSum64 raw)

/-! ## Record GET (`server.getIPNSRecord`, lines 227-269) -/

/-- External collaborators of the record GET handler: `cid.Decode`,
`ipns.NameFromCid`, the backend `ContentRouter.FindIPNSRecord`,
`ipns.MarshalRecord`, and `Record.TTL` (in whole seconds, as the header
uses `int(ttl.Seconds())`). -/
structure GetEnv (C N Rec : Type) where
  decodeCid : String → Except String C
  nameFromCid : C → Except String N
  findIPNSRecord : N → Except String Rec
  marshalRecord : Rec → Except String (List Nat)
  recordTTL : Rec → Except String Nat

structure GetRequest where
  accept : String
  cidStr : String

/-- The observable outcome of the record GET handler: status, body bytes,
error text, the `Cache-Control`, `Etag` and `Content-Type` headers, and
whether the backend `FindIPNSRecord` was invoked. -/
structure GetOutcome where
  status : Nat
  body : List Nat
  errMsg : Option String
  cacheControl : Option String
  etag : Option String
  contentType : Option String
  findCalled : Bool
deriving DecidableEq

/-- Embeds `server.getIPNSRecord`. -/
def getIPNSRecord {C N Rec : Type} (env : GetEnv C N Rec) (req : GetRequest) :
    GetOutcome :=
  if !strContains req.accept mediaTypeIPNSRecord then
    { status := 406, body := [],
      errMsg := some "content type in 'Accept' header is missing or not supported",
      cacheControl := none, etag := none, contentType := none, findCalled := false }
  else
    match env.decodeCid req.cidStr with
    | .error e =>
        { status := 400, body := [], errMsg := some ("unable to parse CID: " ++ e),
          cacheControl := none, etag := none, contentType := none, findCalled := false }
    | .ok c =>
      match env.nameFromCid c with
      | .error e =>
          { status := 400, body := [], errMsg := some ("peer ID CID is not valid: " ++ e),
            cacheControl := none, etag := none, contentType := none, findCalled := false }
      | .ok name =>
        match env.findIPNSRecord name with
        | .error e =>
            { status := 500, body := [], errMsg := some ("delegate error: " ++ e),
              cacheControl := none, etag := none, contentType := none, findCalled := true }
        | .ok record =>
          match env.marshalRecord record with
          | .error e =>
              { status := 500, body := [], errMsg := some e,
                cacheControl := none, etag := none, contentType := none, findCalled := true }
          | .ok rawRecord =>
            let cc : String :=
              match env.recordTTL record with
              | .ok ttl => "max-age=" ++ toString ttl
              | .error _ => "max-age=60"
            { status := 200, body := rawRecord, errMsg := none,
              cacheControl := some cc, etag := some (recordEtag rawRecord),
              contentType := some mediaTypeIPNSRecord, findCalled := true }

/-! ## Record PUT (`server.putIPNSRecord`, lines 271-317) -/

/-- Embeds `ipns.MaxRecordSize` (10 KiB, from the external ipns package). -/
def maxRecordSize : Nat := 10240

/-- Embeds `io.ReadAll(io.LimitReader(body, limit))` on a body that yields
`bodyBytes` and then either ends (`bodyErr = none`) or fails with a read
error. `LimitReader` returns EOF once `limit` bytes are consumed, so a
read error is observed only when it occurs strictly before the limit;
an over-long body is silently truncated, never an error. -/
def readAllLimit (limit : Nat) (bodyBytes : List Nat) (bodyErr : Option String) :
    Except String (List Nat) :=
  if limit ≤ bodyBytes.length then .ok (bodyBytes.take limit)
  else
    match bodyErr with
    | some e => .error e
    | none => .ok bodyBytes

/-- External collaborators of the record PUT handler: `cid.Decode`,
`ipns.NameFromCid`, `ipns.UnmarshalRecord`, `ipns.ValidateWithName`, and
the backend `ContentRouter.ProvideIPNSRecord`. -/
structure PutEnv (C N Rec : Type) where
  decodeCid : String → Except String C
  nameFromCid : C → Except String N
  unmarshalRecord : List Nat → Except String Rec
  validateWithName : Rec → N → Except String Unit
  provideIPNSRecord : N → Rec → Except String Unit

structure PutRequest where
  contentType : String
  cidStr : String
  bodyBytes : List Nat
  bodyErr : Option String

/-- The observable outcome of the record PUT handler: status, error text,
and whether `ProvideIPNSRecord` was invoked. -/
structure PutOutcome where
  status : Nat
  errMsg : Option String
  provideCalled : Bool
deriving DecidableEq

/-- Embeds `server.putIPNSRecord`. -/
def putIPNSRecord {C N Rec : Type} (env : PutEnv C N Rec) (req : PutRequest) :
    PutOutcome :=
  if !strContains req.contentType mediaTypeIPNSRecord then
    { status := 406,
      errMsg := some "content type in 'Content-Type' header is missing or not supported",
      provideCalled := false }
  else
    match env.decodeCid req.cidStr with
    | .error e =>
        { status := 400, errMsg := some ("unable to parse CID: " ++ e), provideCalled := false }
    | .ok c =>
      match env.nameFromCid c with
      | .error e =>
          { status := 400, errMsg := some ("peer ID CID is not valid: " ++ e),
            provideCalled := false }
      | .ok name =>
        match readAllLimit maxRecordSize req.bodyBytes req.bodyErr with
        | .error e =>
            { status := 400, errMsg := some ("provided record is too long: " ++ e),
              provideCalled := false }
        | .ok rawRecord =>
          match env.unmarshalRecord rawRecord with
          | .error e =>
              { status := 400, errMsg := some ("provided record is invalid: " ++ e),
                provideCalled := false }
          | .ok record =>
            match env.validateWithName record name with
            | .error e =>
                { status := 400, errMsg := some ("provided record is invalid: " ++ e),
                  provideCalled := false }
            | .ok _ =>
              match env.provideIPNSRecord name record with
              | .error e =>
                  { status := 500, errMsg := some ("delegate error: " ++ e),
                    provideCalled := true }
              | .ok _ => { status := 200, errMsg := none, provideCalled := true }

/-! ## Async bridge adapter (`routing/http/contentrouter`) -/

/-- Embeds `types.SchemaPeer`. -/
def SchemaPeer : String := "peer"

/-- A `types.Record` as seen by the bridge: either a `*types.PeerRecord`
(schema "peer", carrying a peer ID and addresses), a record of some other
schema, or a defensive case for a value whose `GetSchema` reports "peer"
but whose concrete type is not `*types.PeerRecord` (the checked downcast
in the code fails on it). -/
inductive BridgeRecord (ID Addr : Type) where
  | peerRecord (id : ID) (addrs : List Addr)
  | otherSchema (schema : String)
  | badPeerCast
deriving DecidableEq

def BridgeRecord.getSchema {ID Addr : Type} : BridgeRecord ID Addr → String
  | .peerRecord _ _ => SchemaPeer
  | .otherSchema s => s
  | .badPeerCast => SchemaPeer

/-- Embeds `peer.AddrInfo`. -/
structure AddrInfo (ID Addr : Type) where
  id : ID
  addrs : List Addr
deriving DecidableEq

/-- Embeds `contentrouter.readProviderResponses` (lines 66-98): the list of
`peer.AddrInfo` values sent to the channel, in order, before the deferred
`close(ch)` runs. An error item is logged and iteration continues; a
non-peer schema or a failed downcast is skipped. -/
def readProviderResponses {ID Addr : Type} :
    List (Except String (BridgeRecord ID Addr)) → List (AddrInfo ID Addr)
  | [] => []
  | .error _ :: rest => readProviderResponses rest
  | .ok v :: rest =>
    if v.getSchema == SchemaPeer then
      match v with
      | .peerRecord pid addrs => { id := pid, addrs := addrs } :: readProviderResponses rest
      | _ => readProviderResponses rest
    else readProviderResponses rest

/-- The reading of the bridge loop taken by the claim, following the words of the spec:
the channel receives the peer-address records in order and "is closed
after the error item or after exhaustion — whichever the sequence
delivers", i.e. an error item terminates delivery. Stated for comparison
with `readProviderResponses`, which embeds the source. -/
def readProviderResponsesClaim {ID Addr : Type} :
    List (Except String (BridgeRecord ID Addr)) → List (AddrInfo ID Addr)
  | [] => []
  | .error _ :: _ => []
  | .ok v :: rest =>
    match v with
    | .peerRecord pid addrs => { id := pid, addrs := addrs } :: readProviderResponsesClaim rest
    | _ => readProviderResponsesClaim rest

/-- Embeds `contentRouter.FindProvidersAsync` (lines 100-111): the full contents
delivered on the returned channel before it is closed. On a client lookup
error the channel is closed immediately (empty); otherwise a worker runs
`readProviderResponses`. The `Client.FindProviders` signature takes no
result limit, and `numResults` is never read. -/
def FindProvidersAsync {C ID Addr : Type}
    (client : C → Except String (List (Except String (BridgeRecord ID Addr))))
    (key : C) (numResults : Int) : List (AddrInfo ID Addr) :=
  match client key with
  | .error _ => []
  | .ok items => readProviderResponses items

/-! ## Helper predicates and lemmas -/

/-- A token whose media type is JSON or the wildcard (sets `supportsJSON`). -/
def isJSONTok : MediaToken → Bool
  | .parsed mt => mt == mediaTypeJSON || mt == mediaTypeWildcard
  | .malformed _ => false

/-- A token whose media type is NDJSON (sets `supportsNDJSON`). -/
def isNDJSONTok : MediaToken → Bool
  | .parsed mt => mt == mediaTypeNDJSON
  | .malformed _ => false

/-- A token rejected by `mime.ParseMediaType`. -/
def isMalformedTok : MediaToken → Bool
  | .malformed _ => true
  | .parsed _ => false

/-- The per-item extraction that `readProviderResponses` performs: only a
`*types.PeerRecord` carried by a non-error item becomes an `AddrInfo`. -/
def bridgeExtract {ID Addr : Type} :
    Except String (BridgeRecord ID Addr) → Option (AddrInfo ID Addr)
  | .ok (.peerRecord pid addrs) => some { id := pid, addrs := addrs }
  | _ => none

/-! ## Concrete instances used by the witnesses and counterexamples -/

/-- A PUT environment whose record decoder always fails (as
`ipns.UnmarshalRecord` does on a truncated protobuf). -/
def envC1 : PutEnv Nat Nat Nat :=
  { decodeCid := fun _ => .ok 0, nameFromCid := fun _ => .ok 0,
    unmarshalRecord := fun _ => .error ("unexpected EOF"),
    validateWithName := fun _ _ => .ok (), provideIPNSRecord := fun _ _ => .ok () }

/-- A PUT request whose body is one byte longer than `maxRecordSize`. -/
def reqC1 : PutRequest :=
  { contentType := mediaTypeIPNSRecord, cidStr := "k",
    bodyBytes := List.replicate (maxRecordSize + 1) 0, bodyErr := none }

/-- A result sequence mixing a peer-address record, an other-schema
record, an error item, and a peer-address record after the error. -/
def itemsC2 : List (Except String (BridgeRecord Nat Nat)) :=
  [.ok (.peerRecord 1 [2]), .ok (.otherSchema ("bitswap")), .error ("boom"),
   .ok (.peerRecord 3 [4])]

def cfgC3 : ServerCfg :=
  { disableNDJSON := false, recordsLimit := DefaultRecordsLimit,
    streamingRecordsLimit := DefaultStreamingRecordsLimit }

def hdC3 : List (List MediaToken) := [[.parsed mediaTypeNDJSON]]

def envC3 : FPEnv Nat Nat :=
  { decodeCid := fun _ => .ok 5, findProviders := fun _ _ => .ok [],
    marshal := fun r => .ok (toString r) }

def reqC3 : FPRequest := { cidStr := "bafy", acceptHeaders := hdC3 }

def envC4 : FPEnv Nat Nat :=
  { decodeCid := fun _ => .ok 7,
    findProviders := fun _ _ => .ok [.ok 10, .ok 20, .ok 30],
    marshal := fun r => .ok (toString r) }

def cfgC4 : ServerCfg :=
  { disableNDJSON := false, recordsLimit := 20, streamingRecordsLimit := 0 }

def reqC4 : FPRequest := { cidStr := "bafy", acceptHeaders := [] }

def cfgC7 : ServerCfg :=
  { disableNDJSON := false, recordsLimit := DefaultRecordsLimit,
    streamingRecordsLimit := DefaultStreamingRecordsLimit }

/-- A discovery environment whose CID decoder always fails. -/
def envFC7 : FPEnv Nat Nat :=
  { decodeCid := fun _ => .error ("invalid cid"), findProviders := fun _ _ => .ok [],
    marshal := fun r => .ok (toString r) }

def reqFC7 : FPRequest := { cidStr := "not-a-cid", acceptHeaders := [] }

/-- A record GET environment whose CID decoder always fails. -/
def envGC7 : GetEnv Nat Nat Nat :=
  { decodeCid := fun _ => .error ("invalid cid"), nameFromCid := fun _ => .ok 0,
    findIPNSRecord := fun _ => .ok 0, marshalRecord := fun _ => .ok [1],
    recordTTL := fun _ => .ok 60 }

def reqGC7 : GetRequest := { accept := mediaTypeIPNSRecord, cidStr := "not-a-cid" }

/-- A record PUT environment whose CID decoder always fails. -/
def envPC7 : PutEnv Nat Nat Nat :=
  { decodeCid := fun _ => .error ("invalid cid"), nameFromCid := fun _ => .ok 0,
    unmarshalRecord := fun _ => .ok 0, validateWithName := fun _ _ => .ok (),
    provideIPNSRecord := fun _ _ => .ok () }

def reqPC7 : PutRequest :=
  { contentType := mediaTypeIPNSRecord, cidStr := "not-a-cid",
    bodyBytes := [1], bodyErr := none }

/-- A PUT environment whose record decodes but fails cryptographic
validation against the derived name. -/
def envC8 : PutEnv Nat Nat Nat :=
  { decodeCid := fun _ => .ok 3, nameFromCid := fun _ => .ok 4,
    unmarshalRecord := fun _ => .ok 5,
    validateWithName := fun _ _ => .error ("signature mismatch"),
    provideIPNSRecord := fun _ _ => .ok () }

def reqC8 : PutRequest :=
  { contentType := mediaTypeIPNSRecord, cidStr := "k",
    bodyBytes := [1, 2, 3], bodyErr := none }

/-- First half of an XXH64 collision pair (16 zero bytes). -/
def rawC9a : List Nat := List.replicate 16 0

/-- Second half of the collision pair: `xxhashSum64 rawC9b = xxhashSum64
rawC9a` although the byte strings differ (built by inverting the XXH64
round function on the second 8-byte lane). -/
def rawC9b : List Nat := [1, 0, 0, 0, 0, 0, 0, 0, 84, 23, 112, 233, 90, 165, 134, 81]

def envC9a : GetEnv Nat Nat Nat :=
  { decodeCid := fun _ => .ok 0, nameFromCid := fun _ => .ok 0,
    findIPNSRecord := fun _ => .ok 0, marshalRecord := fun _ => .ok rawC9a,
    recordTTL := fun _ => .ok 60 }

def envC9b : GetEnv Nat Nat Nat :=
  { decodeCid := fun _ => .ok 0, nameFromCid := fun _ => .ok 0,
    findIPNSRecord := fun _ => .ok 0, marshalRecord := fun _ => .ok rawC9b,
    recordTTL := fun _ => .ok 60 }

/-- Like `envC9a` (same canonical record bytes) but with a failing TTL, so
the two environments differ while marshaling identical bytes. -/
def envC9d : GetEnv Nat Nat Nat :=
  { decodeCid := fun _ => .ok 9, nameFromCid := fun _ => .ok 9,
    findIPNSRecord := fun _ => .ok 9, marshalRecord := fun _ => .ok rawC9a,
    recordTTL := fun _ => .error ("no ttl") }

def reqC9 : GetRequest := { accept := mediaTypeIPNSRecord, cidStr := "k" }

theorem scanTokens_no_malformed (l : List MediaToken) (j n : Bool)
    (h : l.all (fun t => !isMalformedTok t) = true) :
    scanTokens l j n = .ok (j || l.any isJSONTok, n || l.any isNDJSONTok) := by
  induction l generalizing j n with
  | nil => simp [scanTokens]
  | cons t rest ih =>
    cases t with
    | malformed e => simp [isMalformedTok] at h
    | parsed mt =>
      simp only [List.all_cons, Bool.and_eq_true] at h
      simp only [scanTokens, List.any_cons]
      rw [ih _ _ h.2]
      simp [isJSONTok, isNDJSONTok, Bool.or_assoc]

theorem scanTokens_malformed (l : List MediaToken) (j n : Bool)
    (h : l.any isMalformedTok = true) :
    ∃ e, scanTokens l j n = .error ("unable to parse Accept header: " ++ e) := by
  induction l generalizing j n with
  | nil => simp at h
  | cons t rest ih =>
    cases t with
    | malformed e => exact ⟨e, rfl⟩
    | parsed mt =>
      simp only [List.any_cons, isMalformedTok, Bool.false_or] at h
      exact ih _ _ h

theorem findProvidersJSONLoop_oks {R : Type} (vals : List R) (i : Nat) (acc : List R) :
    findProvidersJSONLoop (vals.map .ok) i acc = .okResp (acc ++ vals) := by
  induction vals generalizing i acc with
  | nil => simp [findProvidersJSONLoop]
  | cons v vt ih => simp [findProvidersJSONLoop, ih]

theorem findProvidersJSONLoop_err {R : Type} (vals : List R) (e : String)
    (rest : List (Except String R)) (i : Nat) (acc : List R) :
    findProvidersJSONLoop (vals.map .ok ++ .error e :: rest) i acc =
      .errResp 500 ("delegate error on result " ++ toString (i + vals.length) ++ ": " ++ e) := by
  induction vals generalizing i acc with
  | nil => simp [findProvidersJSONLoop]
  | cons v vt ih =>
    simp only [List.map_cons, List.cons_append, findProvidersJSONLoop, List.append_eq]
    rw [ih]
    simp only [List.length_cons]
    rw [show i + 1 + vt.length = i + (vt.length + 1) from by omega]

theorem findProvidersNDJSONLoop_err {R : Type} (marshal : R → Except String String)
    (vals : List R) (bs : List String) (e : String) (rest : List (Except String R))
    (acc : List String) (hm : vals.map marshal = bs.map .ok) :
    findProvidersNDJSONLoop marshal (vals.map .ok ++ .error e :: rest) acc =
      acc ++ (bs.map (fun b => [b, "\n"])).flatten := by
  induction vals generalizing bs acc with
  | nil =>
    have hbs : bs = [] := by cases bs <;> simp_all
    subst hbs
    simp [findProvidersNDJSONLoop]
  | cons v vt ih =>
    cases bs with
    | nil => simp at hm
    | cons b bt =>
      simp only [List.map_cons, List.cons.injEq] at hm
      simp only [List.map_cons, List.cons_append, findProvidersNDJSONLoop, List.append_eq, hm.1]
      rw [ih bt _ hm.2]
      simp

theorem readAllLimit_take (limit : Nat) (bodyBytes : List Nat) (bodyErr : Option String) :
    readAllLimit limit (bodyBytes.take limit) bodyErr = readAllLimit limit bodyBytes bodyErr := by
  by_cases h : limit ≤ bodyBytes.length
  · simp [readAllLimit, h, List.length_take, Nat.min_le_left, List.take_take]
  · rw [List.take_of_length_le (by omega)]

theorem readProviderResponses_eq_filterMap {ID Addr : Type}
    (items : List (Except String (BridgeRecord ID Addr))) :
    readProviderResponses items = items.filterMap bridgeExtract := by
  induction items with
  | nil => rfl
  | cons it rest ih =>
    cases it with
    | error e => simpa [readProviderResponses, bridgeExtract] using ih
    | ok v =>
      cases v with
      | peerRecord pid addrs =>
          simp [readProviderResponses, BridgeRecord.getSchema, bridgeExtract, ih]
      | otherSchema s =>
          by_cases h : (s == SchemaPeer) = true <;>
            simp [readProviderResponses, BridgeRecord.getSchema, bridgeExtract, h, ih]
      | badPeerCast =>
          simp [readProviderResponses, BridgeRecord.getSchema, bridgeExtract, ih]

/-! ## Claim theorems -/

/-- C10: `FindProvidersAsync` ignores its `numResults` parameter — for
every key and every backend behaviour, two calls that differ only in the
`numResults` argument deliver identical channel contents in identical
order. (The underlying `Client.FindProviders` signature carries no
result-count parameter at all, as the type of `client` shows.) -/
theorem FindProvidersAsync_C10_ignores_numResults {C ID Addr : Type}
    (client : C → Except String (List (Except String (BridgeRecord ID Addr))))
    (key : C) (n m : Int) :
    FindProvidersAsync client key n = FindProvidersAsync client key m := rfl

/-- C2 counterexample: on a sequence mixing a peer-address record, an
other-schema record, a mid-sequence error item and a further peer-address
record, the channel also receives the peer-address record that comes
after the error (the code logs the error and continues), so it is not
closed after the error item as the claim states. -/
theorem readProviderResponses_C2_counterexample :
    readProviderResponses itemsC2 =
      [{ id := 1, addrs := [2] }, { id := 3, addrs := [4] }] ∧
    readProviderResponsesClaim itemsC2 = [{ id := 1, addrs := [2] }] ∧
    readProviderResponses itemsC2 ≠ readProviderResponsesClaim itemsC2 := by
  refine ⟨rfl, rfl, ?_⟩
  decide

/-- C2 amended: the channel receives exactly the peer-address records of
the whole sequence — error items are logged and skipped, other-schema
records and failed downcasts are dropped — in their original relative
order, and it is closed only after the sequence is exhausted. -/
theorem readProviderResponses_C2_amended {ID Addr : Type}
    (items : List (Except String (BridgeRecord ID Addr))) :
    readProviderResponses items = items.filterMap bridgeExtract := by
  induction items with
  | nil => rfl
  | cons it rest ih =>
    cases it with
    | error e => simpa [readProviderResponses, bridgeExtract] using ih
    | ok v =>
      cases v with
      | peerRecord pid addrs =>
          simp [readProviderResponses, BridgeRecord.getSchema, bridgeExtract, ih]
      | otherSchema s =>
          by_cases h : (s == SchemaPeer) = true <;>
            simp [readProviderResponses, BridgeRecord.getSchema, bridgeExtract, h, ih]
      | badPeerCast =>
          simp [readProviderResponses, BridgeRecord.getSchema, bridgeExtract, ih]

/-- C4: for a well-formed key, GET discovery with no Accept header and a
backend yielding N valid records then exhausting responds with the bulk
JSON object whose providers list is exactly the backend values in their
original order (here as the `ProvidersResponse` value handed to the
deterministic drjson marshaller), after one backend call with the bulk
records limit. -/
theorem findProviders_C4_json_order {C R : Type} (env : FPEnv C R)
    (cfg : ServerCfg) (req : FPRequest) (c : C) (vals : List R)
    (hacc : req.acceptHeaders = [])
    (hcid : env.decodeCid req.cidStr = .ok c)
    (hfp : env.findProviders c cfg.recordsLimit = .ok (vals.map .ok)) :
    findProviders env cfg req =
      { response := .jsonOut (.okResp vals),
        findProvidersCall := some (c, cfg.recordsLimit) } := by
  unfold findProviders
  rw [hcid, hacc]
  simp [negotiate, hfp, findProvidersJSON, findProvidersJSONLoop_oks]

theorem findProviders_C4_witness :
    findProviders envC4 cfgC4 reqC4 =
      { response := .jsonOut (.okResp [10, 20, 30]),
        findProvidersCall := some (7, cfgC4.recordsLimit) } :=
  findProviders_C4_json_order envC4 cfgC4 reqC4 7 [10, 20, 30] rfl rfl rfl

/-- C5: in the bulk strategy, if the item at 0-based position k carries an
error and all earlier items are valid, the writer aborts with a 500 whose
message reports the error and the index k. The whole outcome is that
single error response: the bulk writer buffers and only writes after the
loop, so no success bytes precede it. -/
theorem findProvidersJSON_C5_err_index {R : Type} (vals : List R) (e : String)
    (rest : List (Except String R)) :
    findProvidersJSON (vals.map .ok ++ .error e :: rest) =
      .errResp 500 ("delegate error on result " ++ toString vals.length ++ ": " ++ e) := by
  unfold findProvidersJSON
  rw [findProvidersJSONLoop_err]
  simp

/-- C6: in the streaming strategy an error item terminates the stream
silently — the committed status stays 200, no error object and no further
chunks are written, and the chunks are exactly the marshalled records
that preceded the error, each followed by a line terminator. -/
theorem findProvidersNDJSON_C6_silent {R : Type} (marshal : R → Except String String)
    (vals : List R) (bs : List String) (e : String) (rest : List (Except String R))
    (hm : vals.map marshal = bs.map .ok) :
    findProvidersNDJSON marshal (vals.map .ok ++ .error e :: rest) =
      { status := 200, chunks := (bs.map (fun b => [b, "\n"])).flatten } := by
  unfold findProvidersNDJSON
  rw [findProvidersNDJSONLoop_err marshal vals bs e rest [] hm]
  simp

theorem findProvidersNDJSON_C6_witness :
    findProvidersNDJSON (fun _ : Nat => Except.ok ("rec"))
        ([1, 2].map .ok ++ .error ("boom") :: [.ok 3]) =
      { status := 200, chunks := ["rec", "\n", "rec", "\n"] } :=
  findProvidersNDJSON_C6_silent (fun _ : Nat => Except.ok ("rec"))
    [1, 2] ["rec", "rec"] "boom" [.ok 3] rfl

/-- C1 counterexample: a PUT body one byte over the maximum record size is
not rejected as too long — `io.LimitReader` truncates silently and
`io.ReadAll` returns no error — so the handler proceeds on the truncated
prefix and (here, where the decoder rejects it) answers 400 with
"provided record is invalid", a message that does not mention a length
problem at all. -/
theorem putIPNSRecord_C1_counterexample :
    maxRecordSize < reqC1.bodyBytes.length ∧
    putIPNSRecord envC1 reqC1 =
      { status := 400, errMsg := some ("provided record is invalid: unexpected EOF"),
        provideCalled := false } ∧
    strContains "provided record is invalid: unexpected EOF" "too long" = false := by
  refine ⟨by simp [reqC1], ?_, by decide⟩
  have hct : strContains mediaTypeIPNSRecord mediaTypeIPNSRecord = true := by decide
  have hread : readAllLimit maxRecordSize (List.replicate (maxRecordSize + 1) 0) none =
      .ok (List.replicate maxRecordSize 0) := by
    rw [readAllLimit, if_pos]
    · rw [List.take_replicate, Nat.min_eq_left (Nat.le_succ _)]
    · rw [List.length_replicate]
      omega
  simp [putIPNSRecord, envC1, reqC1, hct, hread]

/-- C1 amended: a body exceeding the maximum record size is silently
truncated rather than rejected: the handler behaves exactly as if the
client had sent only the first `maxRecordSize` bytes, so the store is
invoked precisely when that truncated prefix decodes and validates; the
"record is too long" branch fires only when the underlying body read
fails before the cap is reached. -/
theorem putIPNSRecord_C1_truncates {C N Rec : Type} (env : PutEnv C N Rec)
    (req : PutRequest) :
    putIPNSRecord env req =
      putIPNSRecord env { req with bodyBytes := req.bodyBytes.take maxRecordSize } := by
  obtain ⟨ct, cs, bb, be⟩ := req
  unfold putIPNSRecord
  rw [readAllLimit_take]

/-- C7: a path key that fails to decode yields 400 on all three endpoints
(with an acceptable Accept respectively Content-Type header on the two
record endpoints), and no backend method — `FindProviders`,
`FindIPNSRecord` or `ProvideIPNSRecord` — is invoked. -/
theorem malformedKey_C7_rejected {Cf Rf Cg Ng Rg Cp Np Rp : Type}
    (envF : FPEnv Cf Rf) (cfgF : ServerCfg) (reqF : FPRequest) (eF : String)
    (envG : GetEnv Cg Ng Rg) (reqG : GetRequest) (eG : String)
    (envP : PutEnv Cp Np Rp) (reqP : PutRequest) (eP : String)
    (hF : envF.decodeCid reqF.cidStr = .error eF)
    (hGacc : strContains reqG.accept mediaTypeIPNSRecord = true)
    (hG : envG.decodeCid reqG.cidStr = .error eG)
    (hPct : strContains reqP.contentType mediaTypeIPNSRecord = true)
    (hP : envP.decodeCid reqP.cidStr = .error eP) :
    ((findProviders envF cfgF reqF).response = .err 400 ("unable to parse CID: " ++ eF) ∧
      (findProviders envF cfgF reqF).findProvidersCall = none) ∧
    ((getIPNSRecord envG reqG).status = 400 ∧
      (getIPNSRecord envG reqG).findCalled = false) ∧
    ((putIPNSRecord envP reqP).status = 400 ∧
      (putIPNSRecord envP reqP).provideCalled = false) := by
  refine ⟨?_, ?_, ?_⟩ <;>
    simp [findProviders, getIPNSRecord, putIPNSRecord, hF, hGacc, hG, hPct, hP]

theorem malformedKey_C7_witness :
    ((findProviders envFC7 cfgC7 reqFC7).response =
        .err 400 ("unable to parse CID: invalid cid") ∧
      (findProviders envFC7 cfgC7 reqFC7).findProvidersCall = none) ∧
    ((getIPNSRecord envGC7 reqGC7).status = 400 ∧
      (getIPNSRecord envGC7 reqGC7).findCalled = false) ∧
    ((putIPNSRecord envPC7 reqPC7).status = 400 ∧
      (putIPNSRecord envPC7 reqPC7).provideCalled = false) :=
  malformedKey_C7_rejected envFC7 cfgC7 reqFC7 "invalid cid"
    envGC7 reqGC7 "invalid cid" envPC7 reqPC7 "invalid cid"
    rfl (by decide) rfl (by decide) rfl

/-- C8: a PUT body that decodes into a record which fails cryptographic
validation against the derived routing name is answered 400 with a
message wrapping "record is invalid", and `ProvideIPNSRecord` is never
invoked. -/
theorem putIPNSRecord_C8_invalid {C N Rec : Type} (env : PutEnv C N Rec)
    (req : PutRequest) (c : C) (name : N) (raw : List Nat) (record : Rec) (e : String)
    (hct : strContains req.contentType mediaTypeIPNSRecord = true)
    (hcid : env.decodeCid req.cidStr = .ok c)
    (hname : env.nameFromCid c = .ok name)
    (hread : readAllLimit maxRecordSize req.bodyBytes req.bodyErr = .ok raw)
    (hum : env.unmarshalRecord raw = .ok record)
    (hval : env.validateWithName record name = .error e) :
    putIPNSRecord env req =
      { status := 400, errMsg := some ("provided record is invalid: " ++ e),
        provideCalled := false } := by
  simp [putIPNSRecord, hct, hcid, hname, hread, hum, hval]

theorem putIPNSRecord_C8_witness :
    putIPNSRecord envC8 reqC8 =
      { status := 400,
        errMsg := some ("provided record is invalid: signature mismatch"),
        provideCalled := false } :=
  putIPNSRecord_C8_invalid envC8 reqC8 3 4 [1, 2, 3] 5 "signature mismatch"
    (by decide) rfl rfl rfl rfl rfl

/-- C3: content negotiation for a discovery request with a well-formed
key: no Accept header → bulk JSON with the bulk records limit; otherwise
if any token is the NDJSON type and streaming is enabled → streaming with
the streaming records limit; otherwise if any token is JSON or the
wildcard → bulk; otherwise 400 "no supported content types"; and any
malformed token fails the whole request with 400 before any backend
call. -/
theorem negotiate_C3_cases {C R : Type} (cfg : ServerCfg)
    (headers : List (List MediaToken)) (env : FPEnv C R) (req : FPRequest) (c : C)
    (hreq : req.acceptHeaders = headers)
    (hcid : env.decodeCid req.cidStr = .ok c) :
    (headers = [] → negotiate cfg headers = .ok (.json, cfg.recordsLimit)) ∧
    (headers.flatten.all (fun t => !isMalformedTok t) = true →
      headers.flatten.any isNDJSONTok = true →
      cfg.disableNDJSON = false →
      negotiate cfg headers = .ok (.ndjson, cfg.streamingRecordsLimit)) ∧
    (headers.flatten.all (fun t => !isMalformedTok t) = true →
      ¬(headers.flatten.any isNDJSONTok = true ∧ cfg.disableNDJSON = false) →
      headers.flatten.any isJSONTok = true →
      negotiate cfg headers = .ok (.json, cfg.recordsLimit)) ∧
    (headers ≠ [] →
      headers.flatten.all (fun t => !isMalformedTok t) = true →
      ¬(headers.flatten.any isNDJSONTok = true ∧ cfg.disableNDJSON = false) →
      headers.flatten.any isJSONTok = false →
      (findProviders env cfg req).response = .err 400 ("no supported content types") ∧
      (findProviders env cfg req).findProvidersCall = none) ∧
    (headers.flatten.any isMalformedTok = true →
      ∃ msg, (findProviders env cfg req).response = .err 400 msg ∧
        (findProviders env cfg req).findProvidersCall = none) := by
  refine ⟨?_, ?_, ?_, ?_, ?_⟩
  · intro h
    subst h
    simp [negotiate]
  · intro hall hnd hdis
    have hscan := scanTokens_no_malformed headers.flatten false false hall
    have hemp : headers.isEmpty = false := by
      cases headers with
      | nil => simp at hnd
      | cons hd tl => rfl
    simp [negotiate, hemp, hscan, hnd, hdis]
  · intro hall hcond hj
    by_cases hemp0 : headers = []
    · subst hemp0
      simp [negotiate]
    · have hscan := scanTokens_no_malformed headers.flatten false false hall
      have hemp : headers.isEmpty = false := by
        cases headers with
        | nil => exact absurd rfl hemp0
        | cons hd tl => rfl
      cases hnn : headers.flatten.any isNDJSONTok with
      | false => simp [negotiate, hemp, hscan, hnn, hj]
      | true =>
        cases hdd : cfg.disableNDJSON with
        | false => exact absurd ⟨hnn, hdd⟩ hcond
        | true => simp [negotiate, hemp, hscan, hnn, hdd, hj]
  · intro hne hall hcond hj
    have hscan := scanTokens_no_malformed headers.flatten false false hall
    have hemp : headers.isEmpty = false := by
      cases headers with
      | nil => exact absurd rfl hne
      | cons hd tl => rfl
    have hng : negotiate cfg headers = .error ("no supported content types") := by
      cases hnn : headers.flatten.any isNDJSONTok with
      | false => simp [negotiate, hemp, hscan, hnn, hj]
      | true =>
        cases hdd : cfg.disableNDJSON with
        | false => exact absurd ⟨hnn, hdd⟩ hcond
        | true => simp [negotiate, hemp, hscan, hnn, hdd, hj]
    refine ⟨?_, ?_⟩ <;> simp [findProviders, hcid, hreq, hng]
  · intro hmal
    obtain ⟨e, hscan⟩ := scanTokens_malformed headers.flatten false false hmal
    have hemp : headers.isEmpty = false := by
      cases headers with
      | nil => simp at hmal
      | cons hd tl => rfl
    have hng : negotiate cfg headers = .error ("unable to parse Accept header: " ++ e) := by
      simp [negotiate, hemp, hscan]
    refine ⟨"unable to parse Accept header: " ++ e, ?_, ?_⟩ <;>
      simp [findProviders, hcid, hreq, hng]

theorem negotiate_C3_witness :
    (hdC3 = [] → negotiate cfgC3 hdC3 = .ok (.json, cfgC3.recordsLimit)) ∧
    (hdC3.flatten.all (fun t => !isMalformedTok t) = true →
      hdC3.flatten.any isNDJSONTok = true →
      cfgC3.disableNDJSON = false →
      negotiate cfgC3 hdC3 = .ok (.ndjson, cfgC3.streamingRecordsLimit)) ∧
    (hdC3.flatten.all (fun t => !isMalformedTok t) = true →
      ¬(hdC3.flatten.any isNDJSONTok = true ∧ cfgC3.disableNDJSON = false) →
      hdC3.flatten.any isJSONTok = true →
      negotiate cfgC3 hdC3 = .ok (.json, cfgC3.recordsLimit)) ∧
    (hdC3 ≠ [] →
      hdC3.flatten.all (fun t => !isMalformedTok t) = true →
      ¬(hdC3.flatten.any isNDJSONTok = true ∧ cfgC3.disableNDJSON = false) →
      hdC3.flatten.any isJSONTok = false →
      (findProviders envC3 cfgC3 reqC3).response = .err 400 ("no supported content types") ∧
      (findProviders envC3 cfgC3 reqC3).findProvidersCall = none) ∧
    (hdC3.flatten.any isMalformedTok = true →
      ∃ msg, (findProviders envC3 cfgC3 reqC3).response = .err 400 msg ∧
        (findProviders envC3 cfgC3 reqC3).findProvidersCall = none) :=
  negotiate_C3_cases cfgC3 hdC3 envC3 reqC3 5 rfl rfl

/-- Success-path characterization of the record GET handler: whenever it
answers 200, the Etag header it sets is the xxhash fingerprint of the
body bytes it serves. -/
theorem getIPNSRecord_etag_of_success {C N Rec : Type} (env : GetEnv C N Rec)
    (req : GetRequest) (h : (getIPNSRecord env req).status = 200) :
    (getIPNSRecord env req).etag = some (recordEtag (getIPNSRecord env req).body) := by
  cases hacc : strContains req.accept mediaTypeIPNSRecord with
  | false => simp [getIPNSRecord, hacc] at h
  | true =>
    cases hcid : env.decodeCid req.cidStr with
    | error e => simp [getIPNSRecord, hacc, hcid] at h
    | ok c =>
      cases hname : env.nameFromCid c with
      | error e => simp [getIPNSRecord, hacc, hcid, hname] at h
      | ok nm =>
        cases hfind : env.findIPNSRecord nm with
        | error e => simp [getIPNSRecord, hacc, hcid, hname, hfind] at h
        | ok r0 =>
          cases hmar : env.marshalRecord r0 with
          | error e => simp [getIPNSRecord, hacc, hcid, hname, hfind, hmar] at h
          | ok raw => simp [getIPNSRecord, hacc, hcid, hname, hfind, hmar]

/-- C9 amended: the entity tag set by the record GET handler is a
deterministic function of the canonical record bytes — any two successful
GETs that serve identical canonical bytes carry identical Etags. (The
second half of the claim fails: the fingerprint is a 64-bit
non-cryptographic hash, so two differing canonical byte strings can share
an Etag; see the collision counterexample.) -/
theorem getIPNSRecord_C9_etag_deterministic {Ca Na Ra Cb Nb Rb : Type}
    (envA : GetEnv Ca Na Ra) (reqA : GetRequest)
    (envB : GetEnv Cb Nb Rb) (reqB : GetRequest)
    (hA : (getIPNSRecord envA reqA).status = 200)
    (hB : (getIPNSRecord envB reqB).status = 200)
    (hbody : (getIPNSRecord envA reqA).body = (getIPNSRecord envB reqB).body) :
    (getIPNSRecord envA reqA).etag = (getIPNSRecord envB reqB).etag := by
  rw [getIPNSRecord_etag_of_success envA reqA hA,
    getIPNSRecord_etag_of_success envB reqB hB, hbody]

theorem getIPNSRecord_C9_witness :
    (getIPNSRecord envC9a reqC9).etag = (getIPNSRecord envC9d reqC9).etag :=
  getIPNSRecord_C9_etag_deterministic envC9a reqC9 envC9d reqC9 rfl rfl rfl

/-- C9 counterexample: two successful GETs serving different canonical
record bytes — a 16-byte XXH64 collision pair — carry the same Etag, so
differing canonical byte strings do not always yield differing Etags. -/
theorem getIPNSRecord_C9_collision :
    (getIPNSRecord envC9a reqC9).status = 200 ∧
    (getIPNSRecord envC9b reqC9).status = 200 ∧
    (getIPNSRecord envC9a reqC9).body ≠ (getIPNSRecord envC9b reqC9).body ∧
    (getIPNSRecord envC9a reqC9).etag = (getIPNSRecord envC9b reqC9).etag := by
  refine ⟨rfl, rfl, by decide, ?_⟩
  have ha : (getIPNSRecord envC9a reqC9).etag = some (recordEtag rawC9a) := rfl
  have hb : (getIPNSRecord envC9b reqC9).etag = some (recordEtag rawC9b) := rfl
  rw [ha, hb]
  unfold recordEtag
  rw [show xxhashSum64 rawC9a = xxhashSum64 rawC9b from by decide]

end Boxo
